import Mathlib

/-!
# shared_buffer

A verification development for `shared_buffer.h`: a FIFO buffer handing values from
producer threads to consumer threads, guarded by one mutex and one condition variable.

Every member function touches the fields `values` and `ready` only while it holds the
mutex, so each critical section is one atomic transition on the pair of fields. The
embedding below gives each critical section as a function on that pair and composes
them along an explicit schedule of the other threads.
-/

/-- The fields of `shared_buffer<T>` that the mutex guards: the deque `values`
(front of the deque first) and the flag `ready`. -/
structure shared_buffer (T : Type) where
  values : List T
  ready : Bool
  deriving DecidableEq, Repr

namespace shared_buffer

variable {T : Type}

/-- The constructor `shared_buffer() {}`: an empty deque and `bool ready = false`. -/
def new : shared_buffer T :=
  ⟨[], false⟩

/-- The critical section of `push_back`: `values.push_back(value); ready = true;`. -/
def push_back (s : shared_buffer T) (value : T) : shared_buffer T :=
  ⟨s.values ++ [value], true⟩

/-- The private `pop_front_when_already_locked(T& value)`. The result is the returned
`bool`, the caller's variable `value` after the call, and the fields after the call. -/
def pop_front_when_already_locked (s : shared_buffer T) (value : T) :
    Bool × T × shared_buffer T :=
  match s.values with
  | [] => (false, value, s)
  | front :: rest => (true, front, ⟨rest, false⟩)

/-- The non-waiting `pop_front(T& value)`: takes the lock and extracts. -/
def pop_front (s : shared_buffer T) (value : T) : Bool × T × shared_buffer T :=
  pop_front_when_already_locked s value

/-- The member `size()`: `values.size()` under the lock. -/
def size (s : shared_buffer T) : Nat :=
  s.values.length

/-- The member `empty()`: `size() == 0`. -/
def empty (s : shared_buffer T) : Bool :=
  s.size == 0

/-- The critical section of `halt`: `ready = true;`. -/
def halt (s : shared_buffer T) : shared_buffer T :=
  ⟨s.values, true⟩

/-- The critical sections another thread can run on the buffer. A pop carries the
content of that thread's own output variable before the call. -/
inductive Step (T : Type) where
  | push_back (value : T)
  | pop_front (value : T)
  | wait_extract (value : T)
  | halt
  | size
  deriving DecidableEq, Repr

/-- The end of a wait in the timed `pop_front`, as one critical section: the predicate
`ready` is read under the lock and the extraction follows only when it holds. -/
def wait_extract (s : shared_buffer T) (value : T) : Bool × T × shared_buffer T :=
  if s.ready then pop_front_when_already_locked s value else (false, value, s)

/-- One critical section: the value handed to the caller by a successful pop, if any,
and the fields afterwards. -/
def Step.exec : Step T → shared_buffer T → Option T × shared_buffer T
  | Step.push_back value, s => (none, s.push_back value)
  | Step.pop_front value, s =>
      let r := s.pop_front value
      (if r.1 then some r.2.1 else none, r.2.2)
  | Step.wait_extract value, s =>
      let r := s.wait_extract value
      (if r.1 then some r.2.1 else none, r.2.2)
  | Step.halt, s => (none, s.halt)
  | Step.size, s => (none, s)

/-- The fields after a sequence of critical sections, in the order they took the lock. -/
def run_steps : List (Step T) → shared_buffer T → shared_buffer T
  | [], s => s
  | st :: rest, s => run_steps rest (st.exec s).2

/-- The values returned by the successful pops of a sequence of critical sections, in
the order returned. -/
def delivered : List (Step T) → shared_buffer T → List T
  | [], _ => []
  | st :: rest, s =>
      match (st.exec s).1 with
      | some v => v :: delivered rest (st.exec s).2
      | none => delivered rest (st.exec s).2

/-- The values pushed by a sequence of critical sections, in the order the pushes took
the lock. -/
def pushed : List (Step T) → List T
  | [] => []
  | Step.push_back value :: rest => value :: pushed rest
  | _ :: rest => pushed rest

/-- Successive calls `push_back(v1); ...; push_back(vn);` from one thread. -/
def push_back_all (s : shared_buffer T) (vs : List T) : shared_buffer T :=
  vs.foldl push_back s

/-- The call `pop_front(value)` made `n` times in a row from one thread with the same
output variable: the returned `bool` and the variable after each call, and the fields
after the last one. -/
def pop_front_n : Nat → shared_buffer T → T → List (Bool × T) × shared_buffer T
  | 0, s, _ => ([], s)
  | n + 1, s, value =>
      let r := s.pop_front value
      let rest := pop_front_n n r.2.2 r.2.1
      ((r.1, r.2.1) :: rest.1, rest.2)

/-- The call `halt()` made `k` times in a row. -/
def halt_n : Nat → shared_buffer T → shared_buffer T
  | 0, s => s
  | k + 1, s => halt_n k s.halt

/-- One sleep of a consumer inside `condition_variable.wait_for`: how many clock ticks
pass before it holds the lock again, and the critical sections other threads run
meanwhile. -/
structure Sleep (T : Type) where
  elapsed : Nat
  others : List (Step T)
  deriving DecidableEq, Repr

/-- What `wait_for` hands back: the value of the predicate it returns, the fields at
that moment (the lock is held), and the clock ticks spent asleep. -/
structure WaitResult (T : Type) where
  pred : Bool
  state : shared_buffer T
  waited : Nat
  deriving DecidableEq, Repr

/-- The standard library call `wait_for(lock, max_duration, [this]{ return this->ready; })`,
which the C++ standard defines as
`while (!pred()) if (wait_until(lock, deadline) == cv_status::timeout) return pred(); return true;`.
Each sleep ends in `timeout` exactly when it reaches the deadline. When the schedule
holds no further sleep, nothing else happens to the buffer and the consumer sleeps
until the deadline. -/
def wait_for (s : shared_buffer T) (max_duration : Nat) : List (Sleep T) → WaitResult T
  | [] => if s.ready then ⟨true, s, 0⟩ else ⟨s.ready, s, max_duration⟩
  | w :: ws =>
      if s.ready then ⟨true, s, 0⟩
      else
        let s1 := run_steps w.others s
        if max_duration ≤ w.elapsed then ⟨s1.ready, s1, w.elapsed⟩
        else
          let r := wait_for s1 (max_duration - w.elapsed) ws
          ⟨r.pred, r.state, w.elapsed + r.waited⟩

/-- The return statement through which the timed `pop_front` leaves: the immediate
attempt, the failed wait, or the extraction after a successful wait. -/
inductive Exit where
  | immediate
  | timed_out
  | woken
  deriving DecidableEq, Repr

/-- What a call of the timed `pop_front` gives: the returned `bool`, the caller's
variable afterwards, the fields when the call releases the lock, the return statement
taken and the clock ticks spent asleep. -/
structure PopResult (T : Type) where
  result : Bool
  value : T
  state : shared_buffer T
  exit : Exit
  waited : Nat
  deriving DecidableEq, Repr

/-- The timed `pop_front(T& value, const Duration& max_duration)`. The schedule of the
other threads is explicit: `before` are their critical sections between the release of
the lock after the immediate attempt and its acquisition for the wait, `sleeps` is what
happens during the wait. -/
def pop_front_timed (s : shared_buffer T) (value : T) (max_duration : Nat)
    (before : List (Step T)) (sleeps : List (Sleep T)) : PopResult T :=
  let r := s.pop_front value
  if r.1 then ⟨true, r.2.1, r.2.2, Exit.immediate, 0⟩
  else
    let w := wait_for (run_steps before r.2.2) max_duration sleeps
    if !w.pred then ⟨false, r.2.1, w.state, Exit.timed_out, w.waited⟩
    else
      let e := pop_front_when_already_locked w.state r.2.1
      ⟨e.1, e.2.1, e.2.2, Exit.woken, w.waited⟩

/-- What a consumer asleep in the wait of the timed `pop_front` does when it holds the
lock again. -/
inductive Wake (T : Type) where
  | woken (result : Bool) (value : T)
  | timed_out
  | blocked
  deriving DecidableEq, Repr

/-- One consumer, asleep in the wait of the timed `pop_front`, takes the lock again:
when `ready` holds the wait succeeds and the extraction runs; otherwise the call
returns `false` if the sleep reached the deadline (`expired`) and sleeps again if not. -/
def resume (s : shared_buffer T) (value : T) (expired : Bool) : Wake T × shared_buffer T :=
  if s.ready then
    let e := pop_front_when_already_locked s value
    (Wake.woken e.1 e.2.1, e.2.2)
  else if expired then (Wake.timed_out, s)
  else (Wake.blocked, s)

/-- Several sleeping consumers take the lock again one after the other, in the order of
the list; each comes with its own output variable and whether its deadline has passed. -/
def resume_all : shared_buffer T → List (T × Bool) → List (Wake T) × shared_buffer T
  | s, [] => ([], s)
  | s, c :: cs =>
      let r := resume s c.1 c.2
      let rest := resume_all r.2 cs
      (r.1 :: rest.1, rest.2)

/-- The states a new buffer can reach through critical sections. -/
def Reachable (s : shared_buffer T) : Prop :=
  ∃ steps : List (Step T), run_steps steps new = s

/-- A wait during which no other thread touches the buffer: the consumer wakes after
each of the given numbers of clock ticks (spurious wake-ups) and nobody else runs. -/
def idle_sleeps (ticks : List Nat) : List (Sleep T) :=
  ticks.map (fun e => ⟨e, []⟩)

/-! ## Helper lemmas -/

theorem push_back_all_values (vs : List T) (s : shared_buffer T) :
    (push_back_all s vs).values = s.values ++ vs := by
  induction vs generalizing s with
  | nil => simp [push_back_all]
  | cons v vs ih =>
      have h := ih (s.push_back v)
      simp only [push_back_all, List.foldl_cons] at h ⊢
      rw [h]
      simp [push_back]

theorem pop_front_n_cons (vals : List T) (a : T) (r : Bool) (value : T) :
    pop_front_n (vals.length + 1) ⟨a :: vals, r⟩ value
      = ((a :: vals).map (fun v => (true, v)), ⟨[], false⟩) := by
  induction vals generalizing a r value with
  | nil => simp [pop_front_n, pop_front, pop_front_when_already_locked]
  | cons b vals ih =>
      have h := ih b false a
      simp only [pop_front_n, pop_front, pop_front_when_already_locked, List.length_cons,
        List.map_cons, Prod.mk.injEq, List.cons.injEq, true_and] at h ⊢
      exact h

theorem pop_front_n_all (s : shared_buffer T) (value : T) :
    (pop_front_n s.size s value).1 = s.values.map (fun v => (true, v))
      ∧ (pop_front_n s.size s value).2.values = [] := by
  obtain ⟨vals, r⟩ := s
  cases vals with
  | nil => simp [size, pop_front_n]
  | cons a vals =>
      have h := pop_front_n_cons vals a r value
      simp only [size, List.length_cons]
      rw [h]
      simp

theorem delivered_append_values (steps : List (Step T)) (s : shared_buffer T) :
    delivered steps s ++ (run_steps steps s).values = s.values ++ pushed steps := by
  induction steps generalizing s with
  | nil => simp [delivered, run_steps, pushed]
  | cons st rest ih =>
      obtain ⟨vals, r⟩ := s
      cases st with
      | push_back v =>
          simp [delivered, run_steps, pushed, Step.exec, ih, push_back]
      | pop_front v =>
          cases vals with
          | nil =>
              simp [delivered, run_steps, pushed, Step.exec, ih, pop_front,
                pop_front_when_already_locked]
          | cons a vals =>
              simp [delivered, run_steps, pushed, Step.exec, ih, pop_front,
                pop_front_when_already_locked]
      | wait_extract v =>
          cases r <;> cases vals <;>
            simp [delivered, run_steps, pushed, Step.exec, ih, wait_extract,
              pop_front_when_already_locked]
      | halt =>
          simp [delivered, run_steps, pushed, Step.exec, ih, halt]
      | size =>
          simp [delivered, run_steps, pushed, Step.exec, ih]

/-! ## Single-thread behaviour -/

/-- C1: pushing `v1, ..., vn` onto a new buffer and then calling the non-waiting
`pop_front` `n` times returns `true` every time, writes `v1, ..., vn` to the output
variable in that order, and leaves the buffer empty. -/
theorem fifo_single_thread (vs : List T) (value : T) :
    (pop_front_n vs.length (push_back_all new vs) value).1 = vs.map (fun v => (true, v))
      ∧ (pop_front_n vs.length (push_back_all new vs) value).2.values = []
      ∧ (pop_front_n vs.length (push_back_all new vs) value).2.empty = true := by
  have hv : (push_back_all (new : shared_buffer T) vs).values = vs := by
    rw [push_back_all_values]
    simp [new]
  have hs : (push_back_all (new : shared_buffer T) vs).size = vs.length := by
    simp [size, hv]
  have h := pop_front_n_all (push_back_all (new : shared_buffer T) vs) value
  rw [hs, hv] at h
  refine ⟨h.1, h.2, ?_⟩
  simp [empty, size, h.2]

/-- C2: for every finite sequence of critical sections run on a new buffer, the values
returned by the successful pops, in the order returned, followed by what is left in the
buffer, are the pushed values in the order the pushes took the lock; so the number
delivered plus the number left is the number pushed. -/
theorem conservation_and_order (steps : List (Step T)) :
    delivered steps new ++ (run_steps steps new).values = pushed steps
      ∧ (delivered steps new).length + (run_steps steps new).size = (pushed steps).length := by
  have h := delivered_append_values steps (new : shared_buffer T)
  have h1 : delivered steps new ++ (run_steps steps new).values = pushed steps := by
    rw [h]
    simp [new]
  refine ⟨h1, ?_⟩
  have h2 := congrArg List.length h1
  simpa [size] using h2

/-- C8: on a buffer without stored values, whatever the flag `ready`, the non-waiting
`pop_front` returns `false`, leaves the output variable as passed and leaves the fields
as they were; a new buffer is one such case. -/
theorem pop_front_on_empty (ready : Bool) (value : T) :
    pop_front ⟨[], ready⟩ value = (false, value, ⟨[], ready⟩)
      ∧ pop_front (new : shared_buffer T) value = (false, value, new) := by
  simp [pop_front, pop_front_when_already_locked, new]

/-! ## The timed pop against producers and halt -/

/-- C3: on a buffer without stored values, whatever the flag `ready`, the immediate
attempt of the timed `pop_front` fails; when a producer then pushes `v` before the
consumer next reads the wait predicate, the predicate is true, the call does not leave
through the timeout branch, it returns `true` with `v` in the output variable, and the
buffer is left empty. This holds when the push comes before the wait starts and when it
comes during the first sleep, also a sleep that reaches the deadline. -/
theorem wake_on_push (ready : Bool) (value v : T) (max_duration : Nat)
    (sleeps : List (Sleep T)) :
    (pop_front ⟨[], ready⟩ value).1 = false
      ∧ (push_back ⟨[], ready⟩ v).ready = true
      ∧ pop_front_timed ⟨[], ready⟩ value max_duration [Step.push_back v] sleeps
          = ⟨true, v, ⟨[], false⟩, Exit.woken, 0⟩
      ∧ ∀ elapsed : Nat,
          pop_front_timed ⟨[], false⟩ value max_duration []
              (⟨elapsed, [Step.push_back v]⟩ :: sleeps)
            = ⟨true, v, ⟨[], false⟩, Exit.woken, elapsed⟩ := by
  refine ⟨by simp [pop_front, pop_front_when_already_locked], by simp [push_back], ?_, ?_⟩
  · cases sleeps <;>
      simp [pop_front_timed, pop_front, pop_front_when_already_locked, run_steps, Step.exec,
        push_back, wait_for]
  · intro elapsed
    by_cases hd : max_duration ≤ elapsed
    · simp [pop_front_timed, pop_front, pop_front_when_already_locked, run_steps, Step.exec,
        push_back, wait_for, hd]
    · cases sleeps <;>
        simp [pop_front_timed, pop_front, pop_front_when_already_locked, run_steps, Step.exec,
          push_back, wait_for, hd]

/-- C4: when `halt()` is called on a buffer without stored values, every consumer asleep
in the wait of the timed `pop_front`, in whatever order the consumers take the lock
again (the order of the list) and whether or not its deadline has passed, finds the wait
predicate true and returns `false` with its output variable untouched, not through the
timeout branch; the failed extraction of one consumer leaves `ready` set for the next. -/
theorem halt_wakes_all_waiters (ready : Bool) (consumers : List (T × Bool)) :
    resume_all (halt ⟨[], ready⟩) consumers
        = (consumers.map (fun c => Wake.woken false c.1), ⟨[], true⟩)
      ∧ ∀ (value : T) (expired : Bool),
          (resume (halt ⟨[], ready⟩) value expired).2.ready = true := by
  constructor
  · induction consumers with
    | nil => simp [resume_all, halt]
    | cons c cs ih =>
        simp only [halt] at ih
        simp [resume_all, resume, halt, pop_front_when_already_locked, ih]
  · intro value expired
    simp [resume, halt, pop_front_when_already_locked]

/-- C5: evaluation of the code where the claim fails. The state with values `1, 2` and
`ready` set is reachable; after `halt()` the first of two sleeping consumers extracts `1`
and clears `ready`, so the second finds the wait predicate false although `2` is stored:
it sleeps again, and at its deadline the call returns `false` through the timeout
branch. -/
theorem halt_with_data_leaves_waiter_asleep :
    Reachable (⟨[1, 2], true⟩ : shared_buffer Nat)
      ∧ resume_all (halt (⟨[1, 2], true⟩ : shared_buffer Nat)) [(0, false), (0, false)]
          = ([Wake.woken true 1, Wake.blocked], ⟨[2], false⟩)
      ∧ resume (⟨[2], false⟩ : shared_buffer Nat) 0 true = (Wake.timed_out, ⟨[2], false⟩) := by
  refine ⟨⟨[Step.push_back 1, Step.push_back 2], by decide⟩, by decide, by decide⟩

/-- C6: on a buffer without stored values, `halt()` followed by the timed `pop_front`
returns `false` without sleeping: the immediate attempt fails, the wait predicate is
already true so the call does not leave through the timeout branch, the extraction
finds nothing, and the output variable is left as passed. -/
theorem halt_before_wait (ready : Bool) (value : T) (max_duration : Nat)
    (sleeps : List (Sleep T)) :
    (pop_front (halt ⟨[], ready⟩) value).1 = false
      ∧ (halt (⟨[], ready⟩ : shared_buffer T)).ready = true
      ∧ pop_front_timed (halt ⟨[], ready⟩) value max_duration [] sleeps
          = ⟨false, value, ⟨[], true⟩, Exit.woken, 0⟩ := by
  refine ⟨by simp [pop_front, pop_front_when_already_locked, halt], by simp [halt], ?_⟩
  cases sleeps <;>
    simp [pop_front_timed, pop_front, pop_front_when_already_locked, run_steps, halt, wait_for]

/-- C7: evaluation of the code where the claim fails. On a new buffer the immediate
attempt of the timed `pop_front` fails; other threads then push `1`, push `2` and pop
`1`, which clears `ready`; the wait finds the predicate false until the deadline, and
the call returns `false` through the timeout branch while the buffer holds `2`. -/
theorem timeout_with_data_present :
    pop_front_timed (new : shared_buffer Nat) 0 5
        [Step.push_back 1, Step.push_back 2, Step.pop_front 0] []
      = ⟨false, 0, ⟨[2], false⟩, Exit.timed_out, 5⟩
      ∧ (pop_front_timed (new : shared_buffer Nat) 0 5
          [Step.push_back 1, Step.push_back 2, Step.pop_front 0] []).state.empty = false
      ∧ pop_front_timed (new : shared_buffer Nat) 0 5 []
          [⟨2, [Step.push_back 1, Step.push_back 2, Step.pop_front 0]⟩, ⟨3, []⟩]
        = ⟨false, 0, ⟨[2], false⟩, Exit.timed_out, 5⟩ := by
  refine ⟨by decide, by decide, by decide⟩

/-! ## Halt -/

theorem halt_n_succ (k : Nat) (s : shared_buffer T) : halt_n (k + 1) s = halt s := by
  induction k generalizing s with
  | zero => simp [halt_n]
  | succ k ih =>
      have h := ih (halt s)
      simp only [halt_n] at h ⊢
      rw [h]
      simp [halt]

/-- C9: for every buffer state and every `k ≥ 1`, `k` calls of `halt()` leave the same
fields as one call, so every later sequence of critical sections, and every later timed
`pop_front`, gives the same results after `k` halts as after one. -/
theorem halt_idempotent (s : shared_buffer T) (k : Nat) (hk : 1 ≤ k) :
    halt_n k s = halt s
      ∧ (∀ steps : List (Step T),
          run_steps steps (halt_n k s) = run_steps steps (halt s)
            ∧ delivered steps (halt_n k s) = delivered steps (halt s))
      ∧ ∀ (value : T) (max_duration : Nat) (before : List (Step T)) (sleeps : List (Sleep T)),
          pop_front_timed (halt_n k s) value max_duration before sleeps
            = pop_front_timed (halt s) value max_duration before sleeps := by
  obtain ⟨j, rfl⟩ : ∃ j, k = j + 1 := ⟨k - 1, by omega⟩
  have h := halt_n_succ j s
  refine ⟨h, ?_, ?_⟩
  · intro steps
    rw [h]
    exact ⟨rfl, rfl⟩
  · intro value max_duration before sleeps
    rw [h]

/-- Witness for C9: three halts on a buffer holding `1, 2` with `ready` cleared. -/
theorem halt_idempotent_witness :
    1 ≤ 3 ∧ halt_n 3 (⟨[1, 2], false⟩ : shared_buffer Nat) = halt ⟨[1, 2], false⟩ :=
  ⟨by decide, (halt_idempotent ⟨[1, 2], false⟩ 3 (by decide)).1⟩

/-- C10: `halt()` leaves the stored values, their order, `size()` and `empty()` as they
were, and a `push_back(v)` after it appends `v`: popping `size() + 1` times then returns
`true` each time with the earlier values in order followed by `v`, after which the buffer
is empty and one more pop returns `false`. -/
theorem halt_keeps_data (s : shared_buffer T) (v value : T) :
    (halt s).values = s.values
      ∧ (halt s).size = s.size
      ∧ (halt s).empty = s.empty
      ∧ (push_back (halt s) v).values = s.values ++ [v]
      ∧ (pop_front_n (s.size + 1) (push_back (halt s) v) value).1
          = (s.values ++ [v]).map (fun x => (true, x))
      ∧ (pop_front_n (s.size + 1) (push_back (halt s) v) value).2.values = []
      ∧ ∀ w : T,
          (pop_front (pop_front_n (s.size + 1) (push_back (halt s) v) value).2 w).1 = false := by
  have hs : (push_back (halt s) v).size = s.size + 1 := by
    simp [push_back, halt, size]
  have h := pop_front_n_all (push_back (halt s) v) value
  rw [hs] at h
  refine ⟨rfl, rfl, rfl, rfl, ?_, h.2, ?_⟩
  · rw [h.1]
    simp [push_back, halt]
  · intro w
    simp [pop_front, pop_front_when_already_locked, h.2]

/-! ## Effect of the single operations -/

/-- C11: for every buffer state and every value `v`, `push_back(v)` is total, appends `v`
at the tail and leaves the earlier values and their order as they were, increases
`size()` by exactly one, so that `empty()` is false afterwards, and leaves `ready` true. -/
theorem push_back_effect (s : shared_buffer T) (v : T) :
    (push_back s v).values = s.values ++ [v]
      ∧ (push_back s v).values.take s.size = s.values
      ∧ (push_back s v).values.getLast? = some v
      ∧ (push_back s v).size = s.size + 1
      ∧ (push_back s v).empty = false
      ∧ (push_back s v).ready = true := by
  refine ⟨rfl, ?_, ?_, ?_, ?_, rfl⟩
  · simp [push_back, size]
  · simp [push_back]
  · simp [push_back, size]
  · simp [push_back, size, empty]

/-- C12: for every buffer state, the non-waiting `pop_front` returns `true` exactly when
`empty()` was false beforehand; when it returns `true` the output variable holds the
former head, the remaining values are the former ones without the head, in the same
order, and `size()` has gone down by exactly one. -/
theorem pop_front_iff_data (s : shared_buffer T) (value : T) :
    ((pop_front s value).1 = true ↔ s.empty = false)
      ∧ ((pop_front s value).1 = true →
          s.values.head? = some (pop_front s value).2.1
            ∧ (pop_front s value).2.2.values = s.values.tail
            ∧ s.values = (pop_front s value).2.1 :: (pop_front s value).2.2.values
            ∧ (pop_front s value).2.2.size + 1 = s.size) := by
  obtain ⟨vals, r⟩ := s
  cases vals with
  | nil => simp [pop_front, pop_front_when_already_locked, empty, size]
  | cons a rest => simp [pop_front, pop_front_when_already_locked, empty, size]

/-- Witness for C12: a pop on a buffer holding `1, 2`. -/
theorem pop_front_iff_data_witness :
    (pop_front (⟨[1, 2], true⟩ : shared_buffer Nat) 0).1 = true
      ∧ (⟨[1, 2], true⟩ : shared_buffer Nat).values.head?
          = some (pop_front (⟨[1, 2], true⟩ : shared_buffer Nat) 0).2.1
      ∧ (pop_front (⟨[1, 2], true⟩ : shared_buffer Nat) 0).2.2.values = [2] :=
  ⟨by decide,
    ((pop_front_iff_data (⟨[1, 2], true⟩ : shared_buffer Nat) 0).2 (by decide)).1,
    ((pop_front_iff_data (⟨[1, 2], true⟩ : shared_buffer Nat) 0).2 (by decide)).2.1⟩

/-! ## The wait and the flag `ready` -/

theorem wait_for_idle (s : shared_buffer T) (max_duration : Nat) (ticks : List Nat) :
    (wait_for s max_duration (idle_sleeps ticks)).state = s
      ∧ (wait_for s max_duration (idle_sleeps ticks)).pred = s.ready
      ∧ (s.ready = false → max_duration ≤ (wait_for s max_duration (idle_sleeps ticks)).waited) := by
  induction ticks generalizing max_duration with
  | nil =>
      cases hr : s.ready <;> simp [idle_sleeps, wait_for, hr]
  | cons e ts ih =>
      have h := ih (max_duration - e)
      simp only [idle_sleeps, List.map_cons] at h ⊢
      cases hr : s.ready
      · by_cases hd : max_duration ≤ e
        · simp [wait_for, hr, run_steps, hd]
        · simp only [hr] at h
          simp only [wait_for, hr, run_steps, hd, if_false, Bool.false_eq_true]
          refine ⟨h.1, h.2.1, ?_⟩
          intro _
          have h3 := h.2.2 trivial
          omega
      · simp [wait_for, hr]

theorem pop_front_when_already_locked_ready (s : shared_buffer T) (value : T)
    (h : (pop_front_when_already_locked s value).1 = true) :
    (pop_front_when_already_locked s value).2.2.ready = false := by
  obtain ⟨vals, r⟩ := s
  cases vals with
  | nil => simp [pop_front_when_already_locked] at h
  | cons a rest => simp [pop_front_when_already_locked]

theorem pop_front_when_already_locked_unchanged (s : shared_buffer T) (value : T)
    (h : (pop_front_when_already_locked s value).1 = false) :
    (pop_front_when_already_locked s value).2.2 = s := by
  obtain ⟨vals, r⟩ := s
  cases vals with
  | nil => simp [pop_front_when_already_locked]
  | cons a rest => simp [pop_front_when_already_locked] at h

/-- C13: on a new buffer, never pushed to and never halted, with no other thread running
on it, the timed `pop_front` fails its immediate attempt, finds the wait predicate false
at every wake-up, leaves through the timeout branch only, after at least `max_duration`
clock ticks asleep, with result `false`, the output variable as passed and the fields as
they were. -/
theorem bounded_wait_honoured (value : T) (max_duration : Nat) (ticks : List Nat) :
    (pop_front (new : shared_buffer T) value).1 = false
      ∧ (wait_for (new : shared_buffer T) max_duration (idle_sleeps ticks)).pred = false
      ∧ (pop_front_timed new value max_duration [] (idle_sleeps ticks)).exit = Exit.timed_out
      ∧ max_duration ≤ (pop_front_timed new value max_duration [] (idle_sleeps ticks)).waited
      ∧ (pop_front_timed new value max_duration [] (idle_sleeps ticks)).result = false
      ∧ (pop_front_timed new value max_duration [] (idle_sleeps ticks)).value = value
      ∧ (pop_front_timed new value max_duration [] (idle_sleeps ticks)).state = new := by
  have h := wait_for_idle (new : shared_buffer T) max_duration ticks
  have hp : (wait_for (new : shared_buffer T) max_duration (idle_sleeps ticks)).pred = false := by
    rw [h.2.1]
    rfl
  have hw := h.2.2 rfl
  refine ⟨rfl, hp, ?_, ?_, ?_, ?_, ?_⟩ <;>
    simp [pop_front_timed, pop_front, pop_front_when_already_locked, new, run_steps] <;>
    simp [new] at hp hw h <;>
    simp [hp, hw, h.1]

/-- C14: evaluation of the code where the claim fails. On a new buffer `push_back(1)`,
`push_back(2)` and one non-waiting `pop_front` lead to a buffer that holds `2` while
`ready` is false: the extraction of `1` clears the flag although a value remains. -/
theorem ready_false_with_data :
    (pop_front (push_back (push_back (new : shared_buffer Nat) 1) 2) 0)
        = (true, 1, ⟨[2], false⟩)
      ∧ run_steps [Step.push_back 1, Step.push_back 2, Step.pop_front 0]
          (new : shared_buffer Nat) = ⟨[2], false⟩
      ∧ Reachable (⟨[2], false⟩ : shared_buffer Nat)
      ∧ (⟨[2], false⟩ : shared_buffer Nat).empty = false
      ∧ (⟨[2], false⟩ : shared_buffer Nat).ready = false := by
  refine ⟨by decide, by decide, ⟨[Step.push_back 1, Step.push_back 2, Step.pop_front 0], ?_⟩,
    by decide, rfl⟩
  decide

/-- C15: on every buffer state that holds at least one value, whatever the flag `ready`
and for every timeout and every schedule of the other threads, the timed `pop_front`
returns `true` through the immediate attempt, without entering the wait, and its result,
output variable and resulting fields are those of the non-waiting `pop_front` on the
same state. -/
theorem timed_pop_agrees_with_pop (s : shared_buffer T) (value : T) (max_duration : Nat)
    (before : List (Step T)) (sleeps : List (Sleep T)) (h : s.empty = false) :
    (pop_front_timed s value max_duration before sleeps).result = true
      ∧ (pop_front_timed s value max_duration before sleeps).exit = Exit.immediate
      ∧ (pop_front_timed s value max_duration before sleeps).waited = 0
      ∧ (pop_front_timed s value max_duration before sleeps).result = (pop_front s value).1
      ∧ (pop_front_timed s value max_duration before sleeps).value = (pop_front s value).2.1
      ∧ (pop_front_timed s value max_duration before sleeps).state
          = (pop_front s value).2.2 := by
  obtain ⟨vals, r⟩ := s
  cases vals with
  | nil => simp [empty, size] at h
  | cons a rest => simp [pop_front_timed, pop_front, pop_front_when_already_locked]

/-- Witness for C15: a buffer holding `1, 2` whose flag `ready` is false. -/
theorem timed_pop_agrees_with_pop_witness :
    (⟨[1, 2], false⟩ : shared_buffer Nat).empty = false
      ∧ (pop_front_timed (⟨[1, 2], false⟩ : shared_buffer Nat) 0 5 [] []).exit
          = Exit.immediate :=
  ⟨by decide,
    (timed_pop_agrees_with_pop (⟨[1, 2], false⟩ : shared_buffer Nat) 0 5 [] [] (by decide)).2.1⟩

theorem pop_front_timed_ready (s : shared_buffer T) (value : T) (max_duration : Nat)
    (before : List (Step T)) (sleeps : List (Sleep T))
    (h : (pop_front_timed s value max_duration before sleeps).result = true) :
    (pop_front_timed s value max_duration before sleeps).state.ready = false := by
  unfold pop_front_timed at h ⊢
  simp only [pop_front] at h ⊢
  cases h1 : (pop_front_when_already_locked s value).1
  · simp only [h1, Bool.false_eq_true, if_false] at h ⊢
    cases hp : (wait_for (run_steps before (pop_front_when_already_locked s value).2.2)
        max_duration sleeps).pred
    · simp [hp] at h
    · simp only [hp, Bool.not_true, Bool.false_eq_true, if_false] at h ⊢
      exact pop_front_when_already_locked_ready _ _ h
  · simp only [h1, if_true]
    exact pop_front_when_already_locked_ready s value h1

theorem pop_front_timed_idle_unchanged (s : shared_buffer T) (value : T) (max_duration : Nat)
    (ticks : List Nat)
    (h : (pop_front_timed s value max_duration [] (idle_sleeps ticks)).result = false) :
    (pop_front_timed s value max_duration [] (idle_sleeps ticks)).state = s := by
  unfold pop_front_timed at h ⊢
  simp only [pop_front, run_steps] at h ⊢
  cases h1 : (pop_front_when_already_locked s value).1
  · have hs := pop_front_when_already_locked_unchanged s value h1
    have hw := wait_for_idle s max_duration ticks
    simp only [h1, Bool.false_eq_true, if_false, hs] at h ⊢
    cases hp : (wait_for s max_duration (idle_sleeps ticks)).pred
    · simp only [hp, Bool.not_false, if_true]
      exact hw.1
    · simp only [hp, Bool.not_true, Bool.false_eq_true, if_false, hw.1] at h ⊢
      exact pop_front_when_already_locked_unchanged _ _ h
  · simp [h1] at h

/-- C16: `ready` goes from true to false only in a pop that returns `true`. For every
state and every critical section, if `ready` is true before and false after, the section
is a `pop_front` (the non-waiting one, the immediate attempt or the extraction after a
wait) that handed out a value. Every `pop_front` that returns `true`, non-waiting or
timed, leaves `ready` false, also when values remain. A non-waiting `pop_front` that
returns `false` and a timed one that returns `false` with no other thread running leave
the fields as they were, a `size()` query changes nothing, and `push_back` and `halt`
leave `ready` true. -/
theorem ready_cleared_only_by_extraction (s : shared_buffer T) (st : Step T) (value : T)
    (max_duration : Nat) (before : List (Step T)) (sleeps : List (Sleep T))
    (ticks : List Nat) :
    (s.ready = true → (st.exec s).2.ready = false →
        ((∃ v, st = Step.pop_front v) ∨ (∃ v, st = Step.wait_extract v))
          ∧ (st.exec s).1.isSome = true)
      ∧ ((pop_front s value).1 = true → (pop_front s value).2.2.ready = false)
      ∧ ((pop_front_timed s value max_duration before sleeps).result = true →
          (pop_front_timed s value max_duration before sleeps).state.ready = false)
      ∧ (∀ (a b : T) (rest : List T) (r : Bool),
          pop_front ⟨a :: b :: rest, r⟩ value = (true, a, ⟨b :: rest, false⟩))
      ∧ ((pop_front s value).1 = false → (pop_front s value).2.2 = s)
      ∧ ((pop_front_timed s value max_duration [] (idle_sleeps ticks)).result = false →
          (pop_front_timed s value max_duration [] (idle_sleeps ticks)).state = s)
      ∧ (Step.size.exec s).2 = s
      ∧ (push_back s value).ready = true
      ∧ (halt s).ready = true := by
  refine ⟨?_, ?_, ?_, ?_, ?_, ?_, rfl, rfl, rfl⟩
  · intro h1 h2
    obtain ⟨vals, r⟩ := s
    simp only at h1
    subst h1
    cases st with
    | push_back v => simp [Step.exec, push_back] at h2
    | pop_front v =>
        cases vals with
        | nil => simp [Step.exec, pop_front, pop_front_when_already_locked] at h2
        | cons a rest => simp [Step.exec, pop_front, pop_front_when_already_locked]
    | wait_extract v =>
        cases vals with
        | nil =>
            simp [Step.exec, shared_buffer.wait_extract, pop_front_when_already_locked] at h2
        | cons a rest =>
            simp [Step.exec, shared_buffer.wait_extract, pop_front_when_already_locked]
    | halt => simp [Step.exec, shared_buffer.halt] at h2
    | size => simp [Step.exec] at h2
  · exact pop_front_when_already_locked_ready s value
  · exact pop_front_timed_ready s value max_duration before sleeps
  · intro a b rest r
    simp [pop_front, pop_front_when_already_locked]
  · exact pop_front_when_already_locked_unchanged s value
  · exact pop_front_timed_idle_unchanged s value max_duration ticks

/-- Witness for C16: a pop on a buffer holding `1, 2` with `ready` set clears the flag
and hands out `1`; a pop on an empty buffer with `ready` set returns `false` and leaves
the fields as they were. -/
theorem ready_cleared_only_by_extraction_witness :
    ((⟨[1, 2], true⟩ : shared_buffer Nat).ready = true
        ∧ ((Step.pop_front 0).exec (⟨[1, 2], true⟩ : shared_buffer Nat)).2.ready = false
        ∧ ((Step.pop_front 0).exec (⟨[1, 2], true⟩ : shared_buffer Nat)).1.isSome = true)
      ∧ ((pop_front (⟨[1, 2], true⟩ : shared_buffer Nat) 0).1 = true
        ∧ (pop_front (⟨[1, 2], true⟩ : shared_buffer Nat) 0).2.2.ready = false)
      ∧ ((pop_front_timed (⟨[1, 2], true⟩ : shared_buffer Nat) 0 5 [] []).result = true
        ∧ (pop_front_timed (⟨[1, 2], true⟩ : shared_buffer Nat) 0 5 [] []).state.ready = false)
      ∧ ((pop_front (⟨[], true⟩ : shared_buffer Nat) 0).1 = false
        ∧ (pop_front (⟨[], true⟩ : shared_buffer Nat) 0).2.2 = ⟨[], true⟩)
      ∧ ((pop_front_timed (⟨[], false⟩ : shared_buffer Nat) 0 5 [] (idle_sleeps [2])).result
            = false
        ∧ (pop_front_timed (⟨[], false⟩ : shared_buffer Nat) 0 5 [] (idle_sleeps [2])).state
            = ⟨[], false⟩) :=
  ⟨⟨by decide, by decide,
      ((ready_cleared_only_by_extraction (⟨[1, 2], true⟩ : shared_buffer Nat)
        (Step.pop_front 0) 0 5 [] [] [2]).1 (by decide) (by decide)).2⟩,
    ⟨by decide,
      (ready_cleared_only_by_extraction (⟨[1, 2], true⟩ : shared_buffer Nat)
        (Step.pop_front 0) 0 5 [] [] [2]).2.1 (by decide)⟩,
    ⟨by decide,
      (ready_cleared_only_by_extraction (⟨[1, 2], true⟩ : shared_buffer Nat)
        (Step.pop_front 0) 0 5 [] [] [2]).2.2.1 (by decide)⟩,
    ⟨by decide,
      (ready_cleared_only_by_extraction (⟨[], true⟩ : shared_buffer Nat)
        Step.size 0 5 [] [] [2]).2.2.2.2.1 (by decide)⟩,
    ⟨by decide,
      (ready_cleared_only_by_extraction (⟨[], false⟩ : shared_buffer Nat)
        Step.size 0 5 [] [] [2]).2.2.2.2.2.1 (by decide)⟩⟩

end shared_buffer
